import Mathlib

/-!
Shallow embedding of the model-selection and recognition layer of the
AIND-Recognizer repository (src/my_model_selectors.py and
src/my_recognizer.py), together with theorems settling the spec claims.

Modelling conventions.  Python float values are modelled exactly by an ADT
with finite rationals, the two infinities, and NaN (np.mean of an empty
list warns and returns nan, it does not raise).  np.log is an opaque
rational-valued parameter of the embedding, standing for the float value
the library computes.  The external hmmlearn calls are oracles: a
GaussianHMM(...).fit call that raises is the fit oracle returning none
(base_model catches every exception and returns None), and a model.score
call that raises is the score oracle returning none.  A Python statement
that raises an uncaught ValueError (min/max of an empty collection) is an
Except.error result.
-/

namespace AIND

/-- Python float values as the repository uses them: finite values
(modelled exactly as rationals), the two infinities, and NaN. -/
inductive PyFloat where
  | finite (q : ℚ)
  | posinf
  | neginf
  | nan
deriving DecidableEq

/-- Python float strict less-than; every comparison involving NaN is false. -/
def pyLt : PyFloat → PyFloat → Bool
  | .nan, _ => false
  | _, .nan => false
  | .neginf, .neginf => false
  | .neginf, .finite _ => true
  | .neginf, .posinf => true
  | .finite _, .neginf => false
  | .finite a, .finite b => decide (a < b)
  | .finite _, .posinf => true
  | .posinf, _ => false

/-- Python float strict greater-than. -/
def pyGt (a b : PyFloat) : Bool := pyLt b a

def pyNeg : PyFloat → PyFloat
  | .finite q => .finite (-q)
  | .posinf => .neginf
  | .neginf => .posinf
  | .nan => .nan

def pyAdd : PyFloat → PyFloat → PyFloat
  | .nan, _ => .nan
  | _, .nan => .nan
  | .posinf, .neginf => .nan
  | .neginf, .posinf => .nan
  | .posinf, _ => .posinf
  | _, .posinf => .posinf
  | .neginf, _ => .neginf
  | _, .neginf => .neginf
  | .finite a, .finite b => .finite (a + b)

def pySub (a b : PyFloat) : PyFloat := pyAdd a (pyNeg b)

def pySum (l : List PyFloat) : PyFloat := l.foldl pyAdd (.finite 0)

def pyDivNat : PyFloat → ℕ → PyFloat
  | .finite q, n => .finite (q / n)
  | .posinf, _ => .posinf
  | .neginf, _ => .neginf
  | .nan, _ => .nan

/-- np.mean of a list of floats: NaN on the empty list (numpy emits a
RuntimeWarning and returns nan rather than raising), otherwise the sum
divided by the length. -/
def npMean (l : List PyFloat) : PyFloat :=
  match l with
  | [] => .nan
  | _ => pyDivNat (pySum l) l.length

variable {α : Type*}

/-- One comparison step of Python min/max with a key function: the current
best is replaced only on a strict improvement, so the first extremal
element wins ties. -/
def pickBetter (better : PyFloat → PyFloat → Bool) (best q : PyFloat × α) : PyFloat × α :=
  if better q.1 best.1 then q else best

/-- Python min/max over a list of (score, payload) pairs with the score as
key; none on the empty list (Python raises ValueError there). -/
def pyExtremalBy (better : PyFloat → PyFloat → Bool) (l : List (PyFloat × α)) :
    Option (PyFloat × α) :=
  match l with
  | [] => none
  | x :: xs => some (xs.foldl (pickBetter better) x)

/-- Uncaught Python exceptions surfaced to the caller. -/
inductive PyExn where
  | valueError
deriving DecidableEq

/-- The ModelSelector object state: the constructor fields of
ModelSelector.__init__ that the select methods read or write.  hwords maps
a word to its precomputed concatenated (feature matrix, lengths) pair. -/
structure ModelSelector (Frame : Type*) where
  words : List String
  hwords : String → List Frame × List ℕ
  sequences : List (List Frame)
  X : List Frame
  lengths : List ℕ
  this_word : String
  n_constant : ℕ
  min_n : ℕ
  max_n : ℕ

variable {Frame Model : Type*}

/-- ModelSelector.base_model: fit a model with the given state count on the
currently stored (X, lengths); every exception is caught and None returned. -/
def base_model (fit : ℕ → List Frame → List ℕ → Option Model)
    (st : ModelSelector Frame) (ns : ℕ) : Option Model :=
  fit ns st.X st.lengths

/-- range(min_n_components, max_n_components + 1). -/
def stateRange (st : ModelSelector Frame) : List ℕ :=
  List.range' st.min_n (st.max_n + 1 - st.min_n)

/-- SelectorConstant.select: a single base_model call at n_constant. -/
def selectorConstant (fit : ℕ → List Frame → List ℕ → Option Model)
    (st : ModelSelector Frame) : Option Model :=
  base_model fit st st.n_constant

/-- The body of SelectorBIC.select's loop for one num_states value: on any
failure the candidate is recorded as (float("-inf"), hmm_model), where
hmm_model is None when base_model failed. -/
def bicEvalOne (fit : ℕ → List Frame → List ℕ → Option Model)
    (sc : Model → List Frame → List ℕ → Option ℚ) (logq : ℕ → ℚ)
    (st : ModelSelector Frame) (ns : ℕ) : PyFloat × Option Model :=
  match base_model fit st ns with
  | none => (.neginf, none)
  | some m =>
    match sc m st.X st.lengths with
    | none => (.neginf, some m)
    | some LL =>
      (.finite (-2 * LL +
          ((ns : ℚ) ^ 2 + 2 * (ns : ℚ) * (st.lengths.sum : ℚ) - 1) * logq st.lengths.sum),
        some m)

/-- The candidate list SelectorBIC.select accumulates in `models`. -/
def bicCandidates (fit : ℕ → List Frame → List ℕ → Option Model)
    (sc : Model → List Frame → List ℕ → Option ℚ) (logq : ℕ → ℚ)
    (st : ModelSelector Frame) : List (PyFloat × Option Model) :=
  (stateRange st).map (bicEvalOne fit sc logq st)

/-- SelectorBIC.select: min over the candidate list by score. -/
def selectorBIC (fit : ℕ → List Frame → List ℕ → Option Model)
    (sc : Model → List Frame → List ℕ → Option ℚ) (logq : ℕ → ℚ)
    (st : ModelSelector Frame) : Except PyExn (Option Model) :=
  match pyExtremalBy pyLt (bicCandidates fit sc logq st) with
  | none => .error .valueError
  | some pr => .ok pr.2

/-- The DIC adversary loop: score the fitted model on every other word's
concatenated collection; none when any of those score calls raises. -/
def dicAdvScores (sc : Model → List Frame → List ℕ → Option ℚ)
    (st : ModelSelector Frame) (m : Model) : Option (List ℚ) :=
  (st.words.filter (fun w => w != st.this_word)).mapM
    (fun w => sc m (st.hwords w).1 (st.hwords w).2)

/-- The body of SelectorDIC.select's loop for one num_states value. -/
def dicEvalOne (fit : ℕ → List Frame → List ℕ → Option Model)
    (sc : Model → List Frame → List ℕ → Option ℚ)
    (st : ModelSelector Frame) (ns : ℕ) : PyFloat × Option Model :=
  match base_model fit st ns with
  | none => (.neginf, none)
  | some m =>
    match sc m st.X st.lengths with
    | none => (.neginf, some m)
    | some LL =>
      match dicAdvScores sc st m with
      | none => (.neginf, some m)
      | some advs => (pySub (.finite LL) (npMean (advs.map PyFloat.finite)), some m)

/-- The candidate list SelectorDIC.select accumulates in `models`. -/
def dicCandidates (fit : ℕ → List Frame → List ℕ → Option Model)
    (sc : Model → List Frame → List ℕ → Option ℚ)
    (st : ModelSelector Frame) : List (PyFloat × Option Model) :=
  (stateRange st).map (dicEvalOne fit sc st)

/-- SelectorDIC.select: max over the candidate list by score. -/
def selectorDIC (fit : ℕ → List Frame → List ℕ → Option Model)
    (sc : Model → List Frame → List ℕ → Option ℚ)
    (st : ModelSelector Frame) : Except PyExn (Option Model) :=
  match pyExtremalBy pyGt (dicCandidates fit sc st) with
  | none => .error .valueError
  | some pr => .ok pr.2

/-- asl_utils.combine_sequences: concatenate the chosen sequences into one
feature matrix together with the parallel per-sequence length vector. -/
def combine_sequences (idx : List ℕ) (seqs : List (List Frame)) :
    List Frame × List ℕ :=
  ((idx.map (fun i => seqs.getD i [])).flatten, idx.map (fun i => (seqs.getD i []).length))

/-- sklearn KFold fold sizes: the first n %% k folds get one extra sample. -/
def foldSizes (n k : ℕ) : List ℕ :=
  (List.range k).map (fun i => n / k + if i < n % k then 1 else 0)

/-- Contiguous index blocks of the given sizes starting at `start`. -/
def blocksFrom : ℕ → List ℕ → List (List ℕ)
  | _, [] => []
  | start, s :: rest => List.range' start s :: blocksFrom (start + s) rest

/-- sklearn KFold(n_splits=k, shuffle=False).split on n samples: the list of
(train indices, test indices) pairs, test blocks contiguous in order, train
the sorted complement. -/
def kfoldSplits (n k : ℕ) : List (List ℕ × List ℕ) :=
  (blocksFrom 0 (foldSizes n k)).map
    (fun te => ((List.range n).filter (fun i => ! te.contains i), te))

/-- The per-fold mutation in SelectorCV.select: self.X and self.lengths are
reassigned to the recombined training fold before base_model is called. -/
def mutateFold (f : List ℕ × List ℕ) (st : ModelSelector Frame) : ModelSelector Frame :=
  { st with X := (combine_sequences f.1 st.sequences).1,
            lengths := (combine_sequences f.1 st.sequences).2 }

/-- The fold loop of SelectorCV.select for one num_states value.  The
single try wraps the whole loop, so the first raising fold ends the loop:
a fit failure makes hmm_model None and the subsequent .score call raise,
and a score failure raises directly; either way the remaining folds are
abandoned and the scores collected so far are kept.  Returns the collected
cv_results, the (mutated) selector state, and the final hmm_model binding. -/
def cvFoldLoop (fit : ℕ → List Frame → List ℕ → Option Model)
    (sc : Model → List Frame → List ℕ → Option ℚ) (ns : ℕ) :
    List (List ℕ × List ℕ) → ModelSelector Frame → List PyFloat → Option Model →
      List PyFloat × ModelSelector Frame × Option Model
  | [], st, acc, last => (acc, st, last)
  | f :: rest, st, acc, _last =>
    let st' := mutateFold f st
    let tec := combine_sequences f.2 st.sequences
    match fit ns st'.X st'.lengths with
    | none => (acc, st', none)
    | some m =>
      match sc m tec.1 tec.2 with
      | none => (acc, st', some m)
      | some s => cvFoldLoop fit sc ns rest st' (acc ++ [.finite s]) (some m)

/-- The per-candidate evaluation of SelectorCV.select: the degenerate
single-sequence branch fits on the stored collection and scores the same
data (a failure is absorbed as float("-inf")); with no sequences the KFold
constructor raises and is caught, yielding no results; otherwise the fold
loop runs on KFold(min(3, len(sequences))) splits. -/
def cvEvalCandidate (fit : ℕ → List Frame → List ℕ → Option Model)
    (sc : Model → List Frame → List ℕ → Option ℚ) (ns : ℕ)
    (st : ModelSelector Frame) (last : Option Model) :
    List PyFloat × ModelSelector Frame × Option Model :=
  if st.sequences.length = 1 then
    let m := base_model fit st ns
    let r : PyFloat :=
      match m with
      | none => .neginf
      | some mm =>
        match sc mm st.X st.lengths with
        | none => .neginf
        | some s => .finite s
    ([r], st, m)
  else if st.sequences.length < 2 then
    ([], st, last)
  else
    cvFoldLoop fit sc ns (kfoldSplits st.sequences.length (min 3 st.sequences.length)) st [] last

/-- The num_states loop of SelectorCV.select: a candidate with nonempty
cv_results is appended as (np.mean(cv_results), hmm_model); one with no
results is skipped entirely.  The selector state and the hmm_model binding
persist across iterations. -/
def cvCandLoop (fit : ℕ → List Frame → List ℕ → Option Model)
    (sc : Model → List Frame → List ℕ → Option ℚ) :
    List ℕ → ModelSelector Frame → Option Model → List (PyFloat × Option Model) →
      List (PyFloat × Option Model) × ModelSelector Frame
  | [], st, _, acc => (acc, st)
  | ns :: rest, st, last, acc =>
    cvCandLoop fit sc rest (cvEvalCandidate fit sc ns st last).2.1
      (cvEvalCandidate fit sc ns st last).2.2
      (if (cvEvalCandidate fit sc ns st last).1 = [] then acc
       else acc ++ [(npMean (cvEvalCandidate fit sc ns st last).1,
                     (cvEvalCandidate fit sc ns st last).2.2)])

/-- The full candidate accumulation of SelectorCV.select. -/
def cvRun (fit : ℕ → List Frame → List ℕ → Option Model)
    (sc : Model → List Frame → List ℕ → Option ℚ)
    (st : ModelSelector Frame) : List (PyFloat × Option Model) × ModelSelector Frame :=
  cvCandLoop fit sc (stateRange st) st none []

/-- SelectorCV.select together with the final selector state (self.X and
self.lengths as the method leaves them). -/
def selectorCVFull (fit : ℕ → List Frame → List ℕ → Option Model)
    (sc : Model → List Frame → List ℕ → Option ℚ)
    (st : ModelSelector Frame) : Except PyExn (Option Model) × ModelSelector Frame :=
  let r := cvRun fit sc st
  match pyExtremalBy pyGt r.1 with
  | none => (.error .valueError, r.2)
  | some pr => (.ok pr.2, r.2)

/-- SelectorCV.select's return value. -/
def selectorCV (fit : ℕ → List Frame → List ℕ → Option Model)
    (sc : Model → List Frame → List ℕ → Option ℚ)
    (st : ModelSelector Frame) : Except PyExn (Option Model) :=
  (selectorCVFull fit sc st).1

/-- The train/test outcome of one fold, as a pure function of the fold and
the sequence list: none when fitting on the recombined training fold fails
or scoring the recombined test fold fails. -/
def foldOutcome (fit : ℕ → List Frame → List ℕ → Option Model)
    (sc : Model → List Frame → List ℕ → Option ℚ) (ns : ℕ)
    (seqs : List (List Frame)) (f : List ℕ × List ℕ) : Option ℚ :=
  match fit ns (combine_sequences f.1 seqs).1 (combine_sequences f.1 seqs).2 with
  | none => none
  | some m => sc m (combine_sequences f.2 seqs).1 (combine_sequences f.2 seqs).2

/-- The finite scores of the longest all-successful prefix. -/
def takeSomes : List (Option ℚ) → List PyFloat
  | [] => []
  | none :: _ => []
  | some q :: rest => .finite q :: takeSomes rest

variable {Item : Type*}

/-- A score-or-failure turned into the recognizer's recorded value: a
scoring failure is recorded as float("-inf"). -/
def scoreToPy (o : Option ℚ) : PyFloat :=
  match o with
  | some s => .finite s
  | none => .neginf

/-- The per-item score dictionary LL built by recognize: one entry per
word of the models table, in table order. -/
def itemScores (sc : Model → Item → Option ℚ) (models : List (String × Model))
    (it : Item) : List (String × PyFloat) :=
  models.map (fun wm => (wm.1, scoreToPy (sc wm.2 it)))

/-- max(LL, key=LL.get): the first key attaining the maximal value; none on
an empty dictionary (Python raises ValueError). -/
def argmaxKey (l : List (String × PyFloat)) : Option String :=
  match pyExtremalBy pyGt (l.map (fun p => (p.2, p.1))) with
  | none => none
  | some pr => some pr.2

/-- The loop of recognize over the test items, in order. -/
def recognizeLoop (sc : Model → Item → Option ℚ) (models : List (String × Model)) :
    List Item → Except PyExn (List (List (String × PyFloat)) × List String)
  | [] => .ok ([], [])
  | it :: rest =>
    let LL := itemScores sc models it
    match argmaxKey LL with
    | none => .error .valueError
    | some g =>
      match recognizeLoop sc models rest with
      | .error e => .error e
      | .ok pg => .ok (LL :: pg.1, g :: pg.2)

/-- my_recognizer.recognize: the (probabilities, guesses) pair, ordered by
test-item index. -/
def recognize (sc : Model → Item → Option ℚ) (models : List (String × Model))
    (testSet : List Item) :
    Except PyExn (List (List (String × PyFloat)) × List String) :=
  recognizeLoop sc models testSet

/-!
Concrete instances used by the closed theorems (counterexamples, failing
inputs and witnesses).  Frames are natural numbers, models are the unit
type, test items are natural numbers.
-/

/-- A selector state over two classes with a two-frame collection. -/
def stC1 : ModelSelector ℕ :=
  { words := ["A"], hwords := fun _ => ([], []), sequences := [[7, 7]],
    X := [7, 7], lengths := [2], this_word := "A",
    n_constant := 3, min_n := 2, max_n := 3 }

/-- A fit oracle that raises for 2 states and succeeds for 3 states. -/
def fitC1 : ℕ → List ℕ → List ℕ → Option Unit :=
  fun ns _ _ => if ns = 3 then some () else none

/-- A score oracle returning the finite log-likelihood -5. -/
def scC1 : Unit → List ℕ → List ℕ → Option ℚ := fun _ _ _ => some (-5)

/-- An opaque stand-in for np.log. -/
def logC1 : ℕ → ℚ := fun _ => 1

/-- A fit oracle that always succeeds. -/
def fitT : ℕ → List ℕ → List ℕ → Option Unit := fun _ _ _ => some ()

/-- A single-class selector state (no other words), one sequence. -/
def stC6 : ModelSelector ℕ :=
  { words := ["A"], hwords := fun _ => ([], []), sequences := [[1]],
    X := [1], lengths := [1], this_word := "A",
    n_constant := 3, min_n := 2, max_n := 2 }

/-- A score oracle returning the finite log-likelihood 3. -/
def scC6 : Unit → List ℕ → List ℕ → Option ℚ := fun _ _ _ => some 3

/-- A selector state with three one-frame sequences. -/
def stC7 : ModelSelector ℕ :=
  { words := ["A"], hwords := fun _ => ([], []), sequences := [[1], [2], [3]],
    X := [1, 2, 3], lengths := [1, 1, 1], this_word := "A",
    n_constant := 3, min_n := 2, max_n := 2 }

/-- A score oracle that raises exactly on the feature matrix [2] (the
test fold of the second of three folds) and otherwise returns the sum of
the frames. -/
def scC7 : Unit → List ℕ → List ℕ → Option ℚ :=
  fun _ x _ => if x = [2] then none else some (x.sum : ℚ)

/-- A selector state with two one-frame sequences. -/
def stC5 : ModelSelector ℕ :=
  { words := ["A"], hwords := fun _ => ([], []), sequences := [[1], [2]],
    X := [1, 2], lengths := [1, 1], this_word := "A",
    n_constant := 3, min_n := 2, max_n := 2 }

/-- A score oracle that always returns 0. -/
def scZero : Unit → List ℕ → List ℕ → Option ℚ := fun _ _ _ => some 0

/-- A fit oracle that always raises (base_model returns None). -/
def fitNone : ℕ → List ℕ → List ℕ → Option Unit := fun _ _ _ => none

/-- A two-class Best-Model Table. -/
def modelsW : List (String × Unit) := [("A", ()), ("B", ())]

/-- A recognizer score oracle that raises on every (item, class) pair. -/
def scW : Unit → ℕ → Option ℚ := fun _ _ => none

/-!
Order lemmas for Python float comparison, and the specification of
Python min/max over (score, payload) lists.
-/

theorem ratCotrans {qa qb qc : ℚ} (h : qa < qc) : qa < qb ∨ qb < qc := by
  rcases lt_or_le qa qb with h1 | h1
  · exact Or.inl h1
  · exact Or.inr (lt_of_le_of_lt h1 h)

theorem pyLt_irrefl (a : PyFloat) : pyLt a a = false := by
  cases a <;> simp [pyLt]

theorem pyLt_trans {a b c : PyFloat} (h1 : pyLt a b = true) (h2 : pyLt b c = true) :
    pyLt a c = true := by
  cases a <;> cases b <;> cases c <;> simp_all [pyLt]
  exact lt_trans (by assumption) (by assumption)

theorem pyLt_cotrans {a c : PyFloat} (b : PyFloat) (hb : b ≠ PyFloat.nan)
    (h : pyLt a c = true) : pyLt a b = true ∨ pyLt b c = true := by
  cases a <;> cases b <;> cases c <;> simp_all [pyLt]
  exact ratCotrans (by assumption)

theorem pyGt_irrefl (a : PyFloat) : pyGt a a = false := pyLt_irrefl a

theorem pyGt_trans {a b c : PyFloat} (h1 : pyGt a b = true) (h2 : pyGt b c = true) :
    pyGt a c = true := pyLt_trans h2 h1

theorem pyGt_cotrans {a c : PyFloat} (b : PyFloat) (hb : b ≠ PyFloat.nan)
    (h : pyGt a c = true) : pyGt a b = true ∨ pyGt b c = true :=
  (pyLt_cotrans b hb h).symm.imp id id

theorem pickBetter_foldl_spec (better : PyFloat → PyFloat → Bool)
    (hirr : ∀ a, better a a = false)
    (htr : ∀ a b c, better a b = true → better b c = true → better a c = true)
    (hco : ∀ a b c, b ≠ PyFloat.nan → better a c = true → better a b = true ∨ better b c = true)
    (xs : List (PyFloat × α)) :
    ∀ (x : PyFloat × α), (∀ p ∈ x :: xs, p.1 ≠ PyFloat.nan) →
      xs.foldl (pickBetter better) x ∈ x :: xs ∧
        ∀ p ∈ x :: xs, better p.1 (xs.foldl (pickBetter better) x).1 = false := by
  induction xs with
  | nil =>
    intro x _
    refine ⟨by simp, ?_⟩
    intro p hp
    have hpx : p = x := by simpa using hp
    subst hpx
    exact hirr _
  | cons q rest ih =>
    intro x hnn
    rw [List.foldl_cons]
    have hnnq : ∀ p ∈ q :: rest, p.1 ≠ PyFloat.nan := by
      intro p hp
      exact hnn p (List.mem_cons_of_mem _ hp)
    have hnnx : x.1 ≠ PyFloat.nan := hnn x (List.mem_cons_self _ _)
    by_cases hq : better q.1 x.1 = true
    · have hinit : pickBetter better x q = q := by simp [pickBetter, hq]
      rw [hinit]
      obtain ⟨hmem, hopt⟩ := ih q hnnq
      have hqr : better q.1 (rest.foldl (pickBetter better) q).1 = false :=
        hopt q (List.mem_cons_self _ _)
      refine ⟨?_, ?_⟩
      · rcases List.mem_cons.1 hmem with h | h
        · rw [h]; exact List.mem_cons_of_mem _ (List.mem_cons_self _ _)
        · exact List.mem_cons_of_mem _ (List.mem_cons_of_mem _ h)
      · intro p hp
        rcases List.mem_cons.1 hp with rfl | hp'
        · by_contra hx
          have hx' : better p.1 (rest.foldl (pickBetter better) q).1 = true := by
            simpa using hx
          have hqt := htr _ _ _ hq hx'
          rw [hqt] at hqr
          exact Bool.noConfusion hqr
        · exact hopt p hp'
    · have hqf : better q.1 x.1 = false := by simpa using hq
      have hinit : pickBetter better x q = x := by simp [pickBetter, hqf]
      rw [hinit]
      have hnnxr : ∀ p ∈ x :: rest, p.1 ≠ PyFloat.nan := by
        intro p hp
        rcases List.mem_cons.1 hp with rfl | hp'
        · exact hnnx
        · exact hnn p (List.mem_cons_of_mem _ (List.mem_cons_of_mem _ hp'))
      obtain ⟨hmem, hopt⟩ := ih x hnnxr
      have hxr : better x.1 (rest.foldl (pickBetter better) x).1 = false :=
        hopt x (List.mem_cons_self _ _)
      refine ⟨?_, ?_⟩
      · rcases List.mem_cons.1 hmem with h | h
        · rw [h]; exact List.mem_cons_self _ _
        · exact List.mem_cons_of_mem _ (List.mem_cons_of_mem _ h)
      · intro p hp
        rcases List.mem_cons.1 hp with rfl | hp'
        · exact hxr
        · rcases List.mem_cons.1 hp' with rfl | hp''
          · by_contra hx
            have hx' : better p.1 (rest.foldl (pickBetter better) x).1 = true := by
              simpa using hx
            rcases hco p.1 x.1 _ hnnx hx' with h1 | h1
            · rw [h1] at hqf; exact Bool.noConfusion hqf
            · rw [h1] at hxr; exact Bool.noConfusion hxr
          · exact hopt p (List.mem_cons_of_mem _ hp'')

theorem pyExtremalBy_spec (better : PyFloat → PyFloat → Bool)
    (hirr : ∀ a, better a a = false)
    (htr : ∀ a b c, better a b = true → better b c = true → better a c = true)
    (hco : ∀ a b c, b ≠ PyFloat.nan → better a c = true → better a b = true ∨ better b c = true)
    (l : List (PyFloat × α)) (hnn : ∀ p ∈ l, p.1 ≠ PyFloat.nan) (hne : l ≠ []) :
    ∃ pr, pyExtremalBy better l = some pr ∧ pr ∈ l ∧
      ∀ p ∈ l, better p.1 pr.1 = false := by
  match l with
  | [] => exact absurd rfl hne
  | x :: xs =>
    obtain ⟨hmem, hopt⟩ := pickBetter_foldl_spec better hirr htr hco xs x hnn
    exact ⟨xs.foldl (pickBetter better) x, rfl, hmem, hopt⟩

theorem pyMin_spec (l : List (PyFloat × α)) (hnn : ∀ p ∈ l, p.1 ≠ PyFloat.nan)
    (hne : l ≠ []) :
    ∃ pr, pyExtremalBy pyLt l = some pr ∧ pr ∈ l ∧ ∀ p ∈ l, pyLt p.1 pr.1 = false :=
  pyExtremalBy_spec pyLt pyLt_irrefl (fun _ _ _ => pyLt_trans)
    (fun _ b _ => pyLt_cotrans b) l hnn hne

theorem pyMax_spec (l : List (PyFloat × α)) (hnn : ∀ p ∈ l, p.1 ≠ PyFloat.nan)
    (hne : l ≠ []) :
    ∃ pr, pyExtremalBy pyGt l = some pr ∧ pr ∈ l ∧ ∀ p ∈ l, pyGt p.1 pr.1 = false :=
  pyExtremalBy_spec pyGt pyGt_irrefl (fun _ _ _ => pyGt_trans)
    (fun _ b _ => pyGt_cotrans b) l hnn hne

theorem pyExtremalBy_const (better : PyFloat → PyFloat → Bool) (a : PyFloat × α)
    (ha : better a.1 a.1 = false) (l : List (PyFloat × α))
    (hl : ∀ p ∈ l, p = a) (hne : l ≠ []) :
    pyExtremalBy better l = some a := by
  match l with
  | [] => exact absurd rfl hne
  | x :: xs =>
    have hx : x = a := hl x (List.mem_cons_self _ _)
    subst hx
    have hgo : ∀ ys : List (PyFloat × α), (∀ p ∈ ys, p = x) →
        ys.foldl (pickBetter better) x = x := by
      intro ys
      induction ys with
      | nil => intro _; rfl
      | cons y rest ih =>
        intro hys
        have hy : y = x := hys y (List.mem_cons_self _ _)
        subst hy
        rw [List.foldl_cons]
        have hpk : pickBetter better y y = y := by simp [pickBetter, ha]
        rw [hpk]
        exact ih (fun p hp => hys p (List.mem_cons_of_mem _ hp))
    rw [pyExtremalBy]
    rw [hgo xs (fun p hp => hl p (List.mem_cons_of_mem _ hp))]

/-!
Lemmas about the candidate lists.
-/

theorem bicEvalOne_ne_nan (fit : ℕ → List Frame → List ℕ → Option Model)
    (sc : Model → List Frame → List ℕ → Option ℚ) (logq : ℕ → ℚ)
    (st : ModelSelector Frame) (ns : ℕ) :
    (bicEvalOne fit sc logq st ns).1 ≠ PyFloat.nan := by
  unfold bicEvalOne
  cases hbm : base_model fit st ns with
  | none => simp
  | some m => cases hsc : sc m st.X st.lengths <;> simp [hsc]

theorem stateRange_length (st : ModelSelector Frame) :
    (stateRange st).length = st.max_n + 1 - st.min_n := by
  simp [stateRange]

theorem stateRange_ne_nil (st : ModelSelector Frame) (h : st.min_n ≤ st.max_n) :
    stateRange st ≠ [] := by
  have hl : (stateRange st).length ≠ 0 := by
    rw [stateRange_length]
    omega
  intro hc
  rw [hc] at hl
  simp at hl

theorem bicCandidates_ne_nil (fit : ℕ → List Frame → List ℕ → Option Model)
    (sc : Model → List Frame → List ℕ → Option ℚ) (logq : ℕ → ℚ)
    (st : ModelSelector Frame) (h : st.min_n ≤ st.max_n) :
    bicCandidates fit sc logq st ≠ [] := by
  simp only [bicCandidates, ne_eq, List.map_eq_nil_iff]
  exact stateRange_ne_nil st h

/-!
Claim theorems.
-/

/-- C3: for every class and every candidate state count s in
[min_n_components, max_n_components] whose fit and score succeed,
SelectorBIC records the candidate with score
BIC = -2*LL + p*ln(N) where N = sum(lengths) is the total observed frame
count of the class collection and p = s^2 + 2*s*N - 1; and the selector
returns the model of a candidate whose score no other candidate's score is
below (the minimal BIC value, first occurrence winning ties). -/
theorem C3_bic_formula_and_min
    (fit : ℕ → List Frame → List ℕ → Option Model)
    (sc : Model → List Frame → List ℕ → Option ℚ) (logq : ℕ → ℚ)
    (st : ModelSelector Frame) (hr : st.min_n ≤ st.max_n) :
    (∀ ns m LL, fit ns st.X st.lengths = some m → sc m st.X st.lengths = some LL →
        bicEvalOne fit sc logq st ns =
          (.finite (-2 * LL + ((ns : ℚ) ^ 2 + 2 * (ns : ℚ) * (st.lengths.sum : ℚ) - 1) *
              logq st.lengths.sum), some m)) ∧
    ∃ pr, pr ∈ bicCandidates fit sc logq st ∧
      selectorBIC fit sc logq st = .ok pr.2 ∧
      ∀ q ∈ bicCandidates fit sc logq st, pyLt q.1 pr.1 = false := by
  constructor
  · intro ns m LL hf hs
    simp only [bicEvalOne, base_model, hf, hs]
  · have hnn : ∀ p ∈ bicCandidates fit sc logq st, p.1 ≠ PyFloat.nan := by
      intro p hp
      obtain ⟨ns, _, rfl⟩ := List.mem_map.1 hp
      exact bicEvalOne_ne_nan fit sc logq st ns
    obtain ⟨pr, hprEq, hprMem, hopt⟩ :=
      pyMin_spec _ hnn (bicCandidates_ne_nil fit sc logq st hr)
    refine ⟨pr, hprMem, ?_, hopt⟩
    simp [selectorBIC, hprEq]

/-- Witness for C3 at a concrete input: both hypotheses hold and the
selection clause follows by applying the theorem. -/
theorem C3_bic_formula_and_min_witness :
    stC6.min_n ≤ stC6.max_n ∧
    ∃ pr, pr ∈ bicCandidates fitT scC6 logC1 stC6 ∧
      selectorBIC fitT scC6 logC1 stC6 = .ok pr.2 ∧
      ∀ q ∈ bicCandidates fitT scC6 logC1 stC6, pyLt q.1 pr.1 = false :=
  ⟨by decide, (C3_bic_formula_and_min fitT scC6 logC1 stC6 (by decide)).2⟩

/-- C1 fails on the code (code bug): with min_n=2, max_n=3, a fit failure
at 2 states and a successful fit and score at 3 states (finite BIC 30),
SelectorBIC's min() picks the float("-inf") sentinel candidate, so the
failed candidate (whose model is None) is selected as best by the
minimizing strategy even though a finite-BIC candidate exists. -/
theorem C1_bic_min_selects_sentinel :
    selectorBIC fitC1 scC1 logC1 stC1 = .ok none ∧
    (PyFloat.finite 30, some ()) ∈ bicCandidates fitC1 scC1 logC1 stC1 := by
  constructor
  · norm_num [selectorBIC, bicCandidates, bicEvalOne, base_model, stateRange, stC1, fitC1, scC1,
      logC1, List.range', pyExtremalBy, pickBetter, pyLt]
  · norm_num [bicCandidates, bicEvalOne, base_model, stateRange, stC1, fitC1, scC1, logC1,
      List.range']

/-- C6 fails on the code (code bug): on a single-class dataset (no other
words) with a successful fit and score, np.mean of the empty adversary
score list yields NaN (numpy warns, it does not raise), so SelectorDIC
records the candidate with score NaN rather than the negative-infinity
sentinel the failure policy prescribes. -/
theorem C6_dic_empty_mean_records_nan :
    dicCandidates fitT scC6 stC6 = [(.nan, some ())] ∧ PyFloat.nan ≠ PyFloat.neginf := by
  constructor
  · norm_num [dicCandidates, dicEvalOne, dicAdvScores, base_model, stateRange, stC6, fitT, scC6,
      List.range', npMean, pySub, pyAdd, pyNeg, List.filter, List.mapM, List.mapM.loop]
  · decide

/-!
Lemmas about the cross-validation loops.
-/

theorem cvCandLoop_length_le (fit : ℕ → List Frame → List ℕ → Option Model)
    (sc : Model → List Frame → List ℕ → Option ℚ) :
    ∀ (L : List ℕ) (st : ModelSelector Frame) (last : Option Model)
      (acc : List (PyFloat × Option Model)),
      (cvCandLoop fit sc L st last acc).1.length ≤ acc.length + L.length := by
  intro L
  induction L with
  | nil =>
    intro st last acc
    simp [cvCandLoop]
  | cons ns rest ih =>
    intro st last acc
    simp only [cvCandLoop]
    by_cases h : (cvEvalCandidate fit sc ns st last).1 = []
    · rw [if_pos h]
      have := ih (cvEvalCandidate fit sc ns st last).2.1 (cvEvalCandidate fit sc ns st last).2.2 acc
      simp only [List.length_cons]
      omega
    · rw [if_neg h]
      have := ih (cvEvalCandidate fit sc ns st last).2.1 (cvEvalCandidate fit sc ns st last).2.2
        (acc ++ [(npMean (cvEvalCandidate fit sc ns st last).1,
                  (cvEvalCandidate fit sc ns st last).2.2)])
      simp only [List.length_append, List.length_cons, List.length_nil] at this ⊢
      omega

theorem mutateFold_sequences (f : List ℕ × List ℕ) (st : ModelSelector Frame) :
    (mutateFold f st).sequences = st.sequences := rfl

theorem mutateFold_mutateFold (f g : List ℕ × List ℕ) (st : ModelSelector Frame) :
    mutateFold f (mutateFold g st) = mutateFold f st := rfl

theorem cvFoldLoop_results (fit : ℕ → List Frame → List ℕ → Option Model)
    (sc : Model → List Frame → List ℕ → Option ℚ) (ns : ℕ) :
    ∀ (folds : List (List ℕ × List ℕ)) (st : ModelSelector Frame) (acc : List PyFloat)
      (last : Option Model),
      (cvFoldLoop fit sc ns folds st acc last).1 =
        acc ++ takeSomes (folds.map (foldOutcome fit sc ns st.sequences)) := by
  intro folds
  induction folds with
  | nil =>
    intro st acc last
    simp [cvFoldLoop, takeSomes]
  | cons f rest ih =>
    intro st acc last
    cases hf : fit ns (combine_sequences f.1 st.sequences).1 (combine_sequences f.1 st.sequences).2 with
    | none =>
      have ho : foldOutcome fit sc ns st.sequences f = none := by
        simp [foldOutcome, hf]
      simp [cvFoldLoop, mutateFold, hf, ho, takeSomes]
    | some m =>
      cases hs : sc m (combine_sequences f.2 st.sequences).1 (combine_sequences f.2 st.sequences).2 with
      | none =>
        have ho : foldOutcome fit sc ns st.sequences f = none := by
          simp [foldOutcome, hf, hs]
        simp [cvFoldLoop, mutateFold, hf, hs, ho, takeSomes]
      | some s =>
        have ho : foldOutcome fit sc ns st.sequences f = some s := by
          simp [foldOutcome, hf, hs]
        simp only [cvFoldLoop, mutateFold, hf, hs, ho, List.map_cons, takeSomes]
        rw [ih]
        simp [mutateFold]

theorem cvFoldLoop_cons (fit : ℕ → List Frame → List ℕ → Option Model)
    (sc : Model → List Frame → List ℕ → Option ℚ) (ns : ℕ)
    (g : List ℕ × List ℕ) (rest : List (List ℕ × List ℕ)) (st : ModelSelector Frame)
    (acc : List PyFloat) (last : Option Model) :
    cvFoldLoop fit sc ns (g :: rest) st acc last =
      match fit ns (combine_sequences g.1 st.sequences).1 (combine_sequences g.1 st.sequences).2 with
      | none => (acc, mutateFold g st, none)
      | some m =>
        match sc m (combine_sequences g.2 st.sequences).1 (combine_sequences g.2 st.sequences).2 with
        | none => (acc, mutateFold g st, some m)
        | some s => cvFoldLoop fit sc ns rest (mutateFold g st) (acc ++ [.finite s]) (some m) :=
  rfl

theorem cvFoldLoop_state_success (fit : ℕ → List Frame → List ℕ → Option Model)
    (sc : Model → List Frame → List ℕ → Option ℚ) (ns : ℕ)
    (hfit : ∀ k X l, (fit k X l).isSome = true)
    (hsc : ∀ m X l, (sc m X l).isSome = true) :
    ∀ (folds : List (List ℕ × List ℕ)) (f : List ℕ × List ℕ) (st : ModelSelector Frame)
      (acc : List PyFloat) (last : Option Model),
      folds.getLast? = some f →
      (cvFoldLoop fit sc ns folds st acc last).2.1 = mutateFold f st := by
  intro folds
  induction folds with
  | nil =>
    intro f st acc last h
    simp at h
  | cons g rest ih =>
    intro f st acc last h
    obtain ⟨m, hm⟩ := Option.isSome_iff_exists.mp
      (hfit ns (combine_sequences g.1 st.sequences).1 (combine_sequences g.1 st.sequences).2)
    obtain ⟨s, hs⟩ := Option.isSome_iff_exists.mp
      (hsc m (combine_sequences g.2 st.sequences).1 (combine_sequences g.2 st.sequences).2)
    cases rest with
    | nil =>
      have hfg : f = g := by simpa using h.symm
      subst hfg
      rw [cvFoldLoop_cons, hm]
      dsimp only
      rw [hs]
      rfl
    | cons r rs =>
      have hlast : (r :: rs).getLast? = some f := by
        rw [List.getLast?_cons_cons] at h
        exact h
      rw [cvFoldLoop_cons, hm]
      dsimp only
      rw [hs]
      dsimp only
      rw [ih f _ _ _ hlast]
      exact mutateFold_mutateFold f g st

theorem cvEvalCandidate_state_success (fit : ℕ → List Frame → List ℕ → Option Model)
    (sc : Model → List Frame → List ℕ → Option ℚ) (ns : ℕ)
    (st : ModelSelector Frame) (last : Option Model) (f : List ℕ × List ℕ)
    (h2 : 2 ≤ st.sequences.length)
    (hfit : ∀ k X l, (fit k X l).isSome = true)
    (hsc : ∀ m X l, (sc m X l).isSome = true)
    (hf : (kfoldSplits st.sequences.length (min 3 st.sequences.length)).getLast? = some f) :
    (cvEvalCandidate fit sc ns st last).2.1 = mutateFold f st := by
  have hne1 : ¬ st.sequences.length = 1 := by omega
  have hge : ¬ st.sequences.length < 2 := by omega
  simp only [cvEvalCandidate, if_neg hne1, if_neg hge]
  exact cvFoldLoop_state_success fit sc ns hfit hsc _ f st [] last hf

theorem cvCandLoop_state_success (fit : ℕ → List Frame → List ℕ → Option Model)
    (sc : Model → List Frame → List ℕ → Option ℚ)
    (hfit : ∀ k X l, (fit k X l).isSome = true)
    (hsc : ∀ m X l, (sc m X l).isSome = true) :
    ∀ (L : List ℕ) (st : ModelSelector Frame) (last : Option Model)
      (acc : List (PyFloat × Option Model)) (f : List ℕ × List ℕ),
      2 ≤ st.sequences.length →
      (kfoldSplits st.sequences.length (min 3 st.sequences.length)).getLast? = some f →
      L ≠ [] →
      (cvCandLoop fit sc L st last acc).2 = mutateFold f st := by
  intro L
  induction L with
  | nil =>
    intro st last acc f _ _ h
    exact absurd rfl h
  | cons ns rest ih =>
    intro st last acc f h2 hf _
    have hstate : (cvEvalCandidate fit sc ns st last).2.1 = mutateFold f st :=
      cvEvalCandidate_state_success fit sc ns st last f h2 hfit hsc hf
    simp only [cvCandLoop, hstate]
    cases rest with
    | nil => simp [cvCandLoop]
    | cons r rs =>
      have h2' : 2 ≤ (mutateFold f st).sequences.length := h2
      have hf' : (kfoldSplits (mutateFold f st).sequences.length
          (min 3 (mutateFold f st).sequences.length)).getLast? = some f := hf
      rw [ih (mutateFold f st) _ _ f h2' hf' (by simp)]
      exact mutateFold_mutateFold f f st

theorem selectorCVFull_snd (fit : ℕ → List Frame → List ℕ → Option Model)
    (sc : Model → List Frame → List ℕ → Option ℚ) (st : ModelSelector Frame) :
    (selectorCVFull fit sc st).2 = (cvRun fit sc st).2 := by
  unfold selectorCVFull
  cases h : pyExtremalBy pyGt (cvRun fit sc st).1 <;> simp [h]

/-!
More claim theorems.
-/

/-- C8: for every class, SelectorBIC and SelectorDIC collect exactly
max_n - min_n + 1 candidates (failures are still recorded with the
sentinel), SelectorCV may collect fewer (a state count with no successful
fold is excluded), and SelectorConstant's result does not depend on the
configured range at all (it evaluates only the single n_constant
candidate). -/
theorem C8_candidate_counts (fit : ℕ → List Frame → List ℕ → Option Model)
    (sc : Model → List Frame → List ℕ → Option ℚ) (logq : ℕ → ℚ)
    (st : ModelSelector Frame) (hr : st.min_n ≤ st.max_n) :
    (bicCandidates fit sc logq st).length = st.max_n - st.min_n + 1 ∧
    (dicCandidates fit sc st).length = st.max_n - st.min_n + 1 ∧
    (cvRun fit sc st).1.length ≤ st.max_n - st.min_n + 1 ∧
    ∀ a b, selectorConstant fit { st with min_n := a, max_n := b } = selectorConstant fit st := by
  refine ⟨?_, ?_, ?_, ?_⟩
  · simp only [bicCandidates, List.length_map, stateRange_length]
    omega
  · simp only [dicCandidates, List.length_map, stateRange_length]
    omega
  · have h := cvCandLoop_length_le fit sc (stateRange st) st none []
    rw [stateRange_length] at h
    simp only [List.length_nil, Nat.zero_add] at h
    calc (cvRun fit sc st).1.length ≤ st.max_n + 1 - st.min_n := h
    _ ≤ st.max_n - st.min_n + 1 := by omega
  · intro a b
    rfl

/-- Witness for C8 at a concrete input. -/
theorem C8_candidate_counts_witness :
    stC1.min_n ≤ stC1.max_n ∧
    (bicCandidates fitC1 scC1 logC1 stC1).length = stC1.max_n - stC1.min_n + 1 :=
  ⟨by decide, (C8_candidate_counts fitC1 scC1 logC1 stC1 (by decide)).1⟩

/-- C9: for a class with exactly one recorded sequence, each SelectorCV
candidate produces exactly one degenerate fold, leaves the stored
collection untouched, fits on the whole stored collection and scores the
very same (X, lengths); a fit or score failure on the degenerate fold is
absorbed as a negative-infinity fold result and the path is total (no
crash and no index-out-of-range arises in the embedding). -/
theorem C9_cv_single_sequence (fit : ℕ → List Frame → List ℕ → Option Model)
    (sc : Model → List Frame → List ℕ → Option ℚ) (ns : ℕ)
    (st : ModelSelector Frame) (last : Option Model) (h1 : st.sequences.length = 1) :
    (cvEvalCandidate fit sc ns st last).1.length = 1 ∧
    (cvEvalCandidate fit sc ns st last).2.1 = st ∧
    (base_model fit st ns = none → (cvEvalCandidate fit sc ns st last).1 = [.neginf]) ∧
    (∀ m, base_model fit st ns = some m → sc m st.X st.lengths = none →
        (cvEvalCandidate fit sc ns st last).1 = [.neginf]) ∧
    (∀ m s, base_model fit st ns = some m → sc m st.X st.lengths = some s →
        (cvEvalCandidate fit sc ns st last).1 = [.finite s]) := by
  have hbranch : cvEvalCandidate fit sc ns st last =
      ([match base_model fit st ns with
        | none => PyFloat.neginf
        | some mm =>
          match sc mm st.X st.lengths with
          | none => PyFloat.neginf
          | some s => PyFloat.finite s], st, base_model fit st ns) := by
    simp [cvEvalCandidate, h1]
  rw [hbranch]
  refine ⟨by simp, rfl, ?_, ?_, ?_⟩
  · intro hbm
    simp [hbm]
  · intro m hbm hsc
    simp [hbm, hsc]
  · intro m s hbm hsc
    simp [hbm, hsc]

/-- Witness for C9 at a concrete input. -/
theorem C9_cv_single_sequence_witness :
    stC6.sequences.length = 1 ∧
    (cvEvalCandidate fitT scC6 2 stC6 none).1.length = 1 ∧
    (cvEvalCandidate fitT scC6 2 stC6 none).2.1 = stC6 :=
  ⟨by decide, (C9_cv_single_sequence fitT scC6 2 stC6 none (by decide)).1,
    (C9_cv_single_sequence fitT scC6 2 stC6 none (by decide)).2.1⟩

/-- C7 amended: in SelectorCV with at least two sequences, the scores a
candidate collects are exactly the finite scores of the longest prefix of
folds whose fit and score both succeed: a fold failure abandons that fold
and every later fold of the same candidate (earlier folds' scores are
kept, and no exception escapes the candidate evaluation). -/
theorem C7_cv_prefix_of_successes (fit : ℕ → List Frame → List ℕ → Option Model)
    (sc : Model → List Frame → List ℕ → Option ℚ) (ns : ℕ)
    (st : ModelSelector Frame) (last : Option Model) (h2 : 2 ≤ st.sequences.length) :
    (cvEvalCandidate fit sc ns st last).1 =
      takeSomes ((kfoldSplits st.sequences.length (min 3 st.sequences.length)).map
        (foldOutcome fit sc ns st.sequences)) := by
  have hne1 : ¬ st.sequences.length = 1 := by omega
  have hge : ¬ st.sequences.length < 2 := by omega
  simp only [cvEvalCandidate, if_neg hne1, if_neg hge]
  simpa using cvFoldLoop_results fit sc ns _ st [] last

/-- Witness for the amended C7 at a concrete input. -/
theorem C7_cv_prefix_of_successes_witness :
    2 ≤ stC7.sequences.length ∧
    (cvEvalCandidate fitT scC7 2 stC7 none).1 =
      takeSomes ((kfoldSplits stC7.sequences.length (min 3 stC7.sequences.length)).map
        (foldOutcome fitT scC7 2 stC7.sequences)) :=
  ⟨by decide, C7_cv_prefix_of_successes fitT scC7 2 stC7 none (by decide)⟩

/-- Counterexample to C7 as stated: three sequences give three folds; the
first fold succeeds with score 1, the second fold's score call raises, and
the third fold, which would succeed with score 3, is never evaluated: the
candidate's collected scores are [1], not [1, 3]. -/
theorem C7_fold_failure_aborts_remaining :
    (cvEvalCandidate fitT scC7 2 stC7 none).1 = [.finite 1] ∧
    PyFloat.finite 3 ∉ (cvEvalCandidate fitT scC7 2 stC7 none).1 ∧
    foldOutcome fitT scC7 2 stC7.sequences ([0, 1], [2]) = some 3 := by
  refine ⟨?_, ?_, ?_⟩
  · norm_num [cvEvalCandidate, cvFoldLoop, kfoldSplits, foldSizes, blocksFrom, stC7, fitT, scC7,
      combine_sequences, mutateFold, List.range, List.range', List.filter, base_model]
  · norm_num [cvEvalCandidate, cvFoldLoop, kfoldSplits, foldSizes, blocksFrom, stC7, fitT, scC7,
      combine_sequences, mutateFold, List.range, List.range', List.filter, base_model]
  · norm_num [foldOutcome, fitT, scC7, combine_sequences, stC7]

/-- C5 amended: SelectorCV reassigns self.X and self.lengths to each
fold's recombined training subset before fitting; with at least two
sequences and no fit or score failure, the state the selector leaves
behind is exactly the last fold's training data, not the full class
collection (self.sequences itself is never modified, so every candidate
still draws the same folds). -/
theorem C5_cv_final_state (fit : ℕ → List Frame → List ℕ → Option Model)
    (sc : Model → List Frame → List ℕ → Option ℚ) (st : ModelSelector Frame)
    (f : List ℕ × List ℕ) (hr : st.min_n ≤ st.max_n) (h2 : 2 ≤ st.sequences.length)
    (hfit : ∀ k X l, (fit k X l).isSome = true)
    (hsc : ∀ m X l, (sc m X l).isSome = true)
    (hf : (kfoldSplits st.sequences.length (min 3 st.sequences.length)).getLast? = some f) :
    (selectorCVFull fit sc st).2 = mutateFold f st := by
  rw [selectorCVFull_snd]
  exact cvCandLoop_state_success fit sc hfit hsc (stateRange st) st none [] f h2 hf
    (stateRange_ne_nil st hr)

/-- Counterexample to C5 as stated: with two sequences and a fully
successful run, SelectorCV leaves self.X equal to [1] (the last fold's
training data), no longer the stored full collection [1, 2]. -/
theorem C5_cv_mutates_state :
    (selectorCVFull fitT scZero stC5).2.X = [1] ∧ stC5.X = [1, 2] ∧
    (selectorCVFull fitT scZero stC5).2.X ≠ stC5.X := by
  have h : (selectorCVFull fitT scZero stC5).2 = mutateFold ([0], [1]) stC5 := by
    rw [selectorCVFull_snd]
    exact cvCandLoop_state_success fitT scZero (fun _ _ _ => rfl) (fun _ _ _ => rfl)
      (stateRange stC5) stC5 none [] ([0], [1]) (by decide) (by decide) (by decide)
  rw [h]
  exact ⟨by decide, rfl, by decide⟩

/-- Witness for the amended C5 at a concrete input. -/
theorem C5_cv_final_state_witness :
    stC5.min_n ≤ stC5.max_n ∧ 2 ≤ stC5.sequences.length ∧
    (kfoldSplits stC5.sequences.length (min 3 stC5.sequences.length)).getLast? = some ([0], [1]) ∧
    (selectorCVFull fitT scZero stC5).2 = mutateFold ([0], [1]) stC5 :=
  ⟨by decide, by decide, by decide,
    C5_cv_final_state fitT scZero stC5 ([0], [1]) (by decide) (by decide)
      (fun _ _ _ => rfl) (fun _ _ _ => rfl) (by decide)⟩

theorem dicCandidates_ne_nil (fit : ℕ → List Frame → List ℕ → Option Model)
    (sc : Model → List Frame → List ℕ → Option ℚ)
    (st : ModelSelector Frame) (h : st.min_n ≤ st.max_n) :
    dicCandidates fit sc st ≠ [] := by
  simp only [dicCandidates, ne_eq, List.map_eq_nil_iff]
  exact stateRange_ne_nil st h

theorem bicCandidates_allfail (fit : ℕ → List Frame → List ℕ → Option Model)
    (sc : Model → List Frame → List ℕ → Option ℚ) (logq : ℕ → ℚ)
    (st : ModelSelector Frame) (hf : ∀ k X l, fit k X l = none) :
    ∀ p ∈ bicCandidates fit sc logq st, p = (PyFloat.neginf, none) := by
  intro p hp
  obtain ⟨ns, _, rfl⟩ := List.mem_map.1 hp
  simp [bicEvalOne, base_model, hf]

theorem dicCandidates_allfail (fit : ℕ → List Frame → List ℕ → Option Model)
    (sc : Model → List Frame → List ℕ → Option ℚ)
    (st : ModelSelector Frame) (hf : ∀ k X l, fit k X l = none) :
    ∀ p ∈ dicCandidates fit sc st, p = (PyFloat.neginf, none) := by
  intro p hp
  obtain ⟨ns, _, rfl⟩ := List.mem_map.1 hp
  simp [dicEvalOne, base_model, hf]

theorem selectorBIC_allfail (fit : ℕ → List Frame → List ℕ → Option Model)
    (sc : Model → List Frame → List ℕ → Option ℚ) (logq : ℕ → ℚ)
    (st : ModelSelector Frame) (hr : st.min_n ≤ st.max_n)
    (hf : ∀ k X l, fit k X l = none) :
    selectorBIC fit sc logq st = .ok none := by
  have hconst := pyExtremalBy_const pyLt (PyFloat.neginf, none) (pyLt_irrefl _)
    (bicCandidates fit sc logq st) (bicCandidates_allfail fit sc logq st hf)
    (bicCandidates_ne_nil fit sc logq st hr)
  simp [selectorBIC, hconst]

theorem selectorDIC_allfail (fit : ℕ → List Frame → List ℕ → Option Model)
    (sc : Model → List Frame → List ℕ → Option ℚ)
    (st : ModelSelector Frame) (hr : st.min_n ≤ st.max_n)
    (hf : ∀ k X l, fit k X l = none) :
    selectorDIC fit sc st = .ok none := by
  have hconst := pyExtremalBy_const pyGt (PyFloat.neginf, none) (pyGt_irrefl _)
    (dicCandidates fit sc st) (dicCandidates_allfail fit sc st hf)
    (dicCandidates_ne_nil fit sc st hr)
  simp [selectorDIC, hconst]

theorem takeSomes_allnone (outs : List (Option ℚ)) (h : ∀ o ∈ outs, o = none) :
    takeSomes outs = [] := by
  cases outs with
  | nil => rfl
  | cons o rest =>
    have ho : o = none := h o (List.mem_cons_self _ _)
    subst ho
    rfl

theorem cvFoldLoop_sequences (fit : ℕ → List Frame → List ℕ → Option Model)
    (sc : Model → List Frame → List ℕ → Option ℚ) (ns : ℕ) :
    ∀ (folds : List (List ℕ × List ℕ)) (st : ModelSelector Frame) (acc : List PyFloat)
      (last : Option Model),
      (cvFoldLoop fit sc ns folds st acc last).2.1.sequences = st.sequences := by
  intro folds
  induction folds with
  | nil =>
    intro st acc last
    rfl
  | cons g rest ih =>
    intro st acc last
    rw [cvFoldLoop_cons]
    cases hm : fit ns (combine_sequences g.1 st.sequences).1 (combine_sequences g.1 st.sequences).2 with
    | none => rfl
    | some m =>
      dsimp only
      cases hs : sc m (combine_sequences g.2 st.sequences).1 (combine_sequences g.2 st.sequences).2 with
      | none => rfl
      | some s =>
        dsimp only
        rw [ih (mutateFold g st)]
        rfl

theorem cvEvalCandidate_sequences (fit : ℕ → List Frame → List ℕ → Option Model)
    (sc : Model → List Frame → List ℕ → Option ℚ) (ns : ℕ)
    (st : ModelSelector Frame) (last : Option Model) :
    (cvEvalCandidate fit sc ns st last).2.1.sequences = st.sequences := by
  unfold cvEvalCandidate
  by_cases h1 : st.sequences.length = 1
  · rw [if_pos h1]
  · rw [if_neg h1]
    by_cases h2 : st.sequences.length < 2
    · rw [if_pos h2]
    · rw [if_neg h2]
      exact cvFoldLoop_sequences fit sc ns _ st [] last

theorem cvEvalCandidate_allfail_oneseq (fit : ℕ → List Frame → List ℕ → Option Model)
    (sc : Model → List Frame → List ℕ → Option ℚ) (ns : ℕ)
    (st : ModelSelector Frame) (last : Option Model)
    (hf : ∀ k X l, fit k X l = none) (h1 : st.sequences.length = 1) :
    cvEvalCandidate fit sc ns st last = ([.neginf], st, none) := by
  simp [cvEvalCandidate, h1, base_model, hf]

theorem cvEvalCandidate_allfail_results (fit : ℕ → List Frame → List ℕ → Option Model)
    (sc : Model → List Frame → List ℕ → Option ℚ) (ns : ℕ)
    (st : ModelSelector Frame) (last : Option Model)
    (hf : ∀ k X l, fit k X l = none) (h1 : st.sequences.length ≠ 1) :
    (cvEvalCandidate fit sc ns st last).1 = [] := by
  unfold cvEvalCandidate
  rw [if_neg h1]
  by_cases h2 : st.sequences.length < 2
  · rw [if_pos h2]
  · rw [if_neg h2]
    rw [cvFoldLoop_results]
    rw [takeSomes_allnone]
    · rfl
    · intro o ho
      obtain ⟨g, _, rfl⟩ := List.mem_map.1 ho
      simp [foldOutcome, hf]

theorem cvCandLoop_allfail_results (fit : ℕ → List Frame → List ℕ → Option Model)
    (sc : Model → List Frame → List ℕ → Option ℚ) (hf : ∀ k X l, fit k X l = none) :
    ∀ (L : List ℕ) (st : ModelSelector Frame) (last : Option Model)
      (acc : List (PyFloat × Option Model)), st.sequences.length ≠ 1 →
      (cvCandLoop fit sc L st last acc).1 = acc := by
  intro L
  induction L with
  | nil =>
    intro st last acc _
    rfl
  | cons ns rest ih =>
    intro st last acc h1
    have hres := cvEvalCandidate_allfail_results fit sc ns st last hf h1
    simp only [cvCandLoop, hres, if_pos rfl]
    have hseq : (cvEvalCandidate fit sc ns st last).2.1.sequences.length ≠ 1 := by
      rw [cvEvalCandidate_sequences]
      exact h1
    exact ih _ _ _ hseq

theorem cvCandLoop_allfail_oneseq (fit : ℕ → List Frame → List ℕ → Option Model)
    (sc : Model → List Frame → List ℕ → Option ℚ) (hf : ∀ k X l, fit k X l = none) :
    ∀ (L : List ℕ) (st : ModelSelector Frame) (last : Option Model)
      (acc : List (PyFloat × Option Model)), st.sequences.length = 1 →
      (cvCandLoop fit sc L st last acc).1 =
        acc ++ L.map (fun _ => (PyFloat.neginf, none)) := by
  intro L
  induction L with
  | nil =>
    intro st last acc _
    simp [cvCandLoop]
  | cons ns rest ih =>
    intro st last acc h1
    have heval := cvEvalCandidate_allfail_oneseq fit sc ns st last hf h1
    simp only [cvCandLoop, heval]
    rw [if_neg (by simp : ¬ ([PyFloat.neginf] : List PyFloat) = [])]
    rw [ih st none _ h1]
    have hmean : npMean [PyFloat.neginf] = PyFloat.neginf := rfl
    rw [hmean]
    simp

theorem selectorCV_allfail (fit : ℕ → List Frame → List ℕ → Option Model)
    (sc : Model → List Frame → List ℕ → Option ℚ) (st : ModelSelector Frame)
    (hr : st.min_n ≤ st.max_n) (hf : ∀ k X l, fit k X l = none) :
    selectorCV fit sc st = .ok none ∨ selectorCV fit sc st = .error .valueError := by
  by_cases h1 : st.sequences.length = 1
  · left
    have hres := cvCandLoop_allfail_oneseq fit sc hf (stateRange st) st none [] h1
    have hc1 : (cvRun fit sc st).1 = (stateRange st).map (fun _ => (PyFloat.neginf, none)) := by
      simpa [cvRun] using hres
    have hconst : pyExtremalBy pyGt (cvRun fit sc st).1 = some (PyFloat.neginf, none) := by
      apply pyExtremalBy_const pyGt (PyFloat.neginf, none) (pyGt_irrefl _)
      · intro p hp
        rw [hc1] at hp
        obtain ⟨_, _, rfl⟩ := List.mem_map.1 hp
        rfl
      · rw [hc1]
        simp only [ne_eq, List.map_eq_nil_iff]
        exact stateRange_ne_nil st hr
    simp [selectorCV, selectorCVFull, hconst]
  · right
    have hres := cvCandLoop_allfail_results fit sc hf (stateRange st) st none [] h1
    have hc1 : (cvRun fit sc st).1 = [] := by
      simpa [cvRun] using hres
    simp [selectorCV, selectorCVFull, hc1, pyExtremalBy]

/-!
Claim theorems: total failure and None propagation.
-/

/-- C4: when every candidate state count fails for a class (here: the fit
oracle always raises, so base_model always returns None), the selectors
surface a distinguishable outcome: SelectorBIC and SelectorDIC return the
None model of the sentinel candidate, SelectorCV either returns None (one
sequence) or raises ValueError from max() over the empty candidate list
(otherwise); no selector ever returns a substituted fitted model. -/
theorem C4_total_failure_surfaced (fit : ℕ → List Frame → List ℕ → Option Model)
    (sc : Model → List Frame → List ℕ → Option ℚ) (logq : ℕ → ℚ)
    (st : ModelSelector Frame) (hr : st.min_n ≤ st.max_n)
    (hf : ∀ k X l, fit k X l = none) :
    selectorBIC fit sc logq st = .ok none ∧
    selectorDIC fit sc st = .ok none ∧
    (selectorCV fit sc st = .ok none ∨ selectorCV fit sc st = .error .valueError) ∧
    (∀ m : Model, selectorBIC fit sc logq st ≠ .ok (some m)) ∧
    (∀ m : Model, selectorCV fit sc st ≠ .ok (some m)) := by
  have hb := selectorBIC_allfail fit sc logq st hr hf
  have hd := selectorDIC_allfail fit sc st hr hf
  have hc := selectorCV_allfail fit sc st hr hf
  refine ⟨hb, hd, hc, ?_, ?_⟩
  · intro m hcon
    rw [hb] at hcon
    simp at hcon
  · intro m hcon
    rcases hc with h | h <;> rw [h] at hcon <;> simp at hcon

/-- Witness for C4 at a concrete input. -/
theorem C4_total_failure_surfaced_witness :
    stC1.min_n ≤ stC1.max_n ∧
    selectorBIC fitNone scC1 logC1 stC1 = .ok none ∧
    (selectorCV fitNone scC1 stC1 = .ok none ∨ selectorCV fitNone scC1 stC1 = .error .valueError) :=
  ⟨by decide,
    (C4_total_failure_surfaced fitNone scC1 logC1 stC1 (by decide) (fun _ _ _ => rfl)).1,
    (C4_total_failure_surfaced fitNone scC1 logC1 stC1 (by decide) (fun _ _ _ => rfl)).2.2.1⟩

/-- C10: base_model catches every exception of the underlying fit and
returns None instead of propagating; consequently SelectorConstant.select
returns None when fitting n_constant fails, and SelectorBIC/SelectorDIC
return .ok None when the winning candidate's paired model is None (here:
all candidates fail) - the same .ok shape as a successful selection, with
no accompanying diagnostic. -/
theorem C10_fit_failure_returns_none (fit : ℕ → List Frame → List ℕ → Option Model)
    (sc : Model → List Frame → List ℕ → Option ℚ) (logq : ℕ → ℚ)
    (st : ModelSelector Frame) (ns : ℕ) (hr : st.min_n ≤ st.max_n)
    (hf : ∀ k X l, fit k X l = none) :
    base_model fit st ns = none ∧
    selectorConstant fit st = none ∧
    selectorBIC fit sc logq st = .ok none ∧
    selectorDIC fit sc st = .ok none :=
  ⟨hf ns st.X st.lengths, hf st.n_constant st.X st.lengths,
    selectorBIC_allfail fit sc logq st hr hf, selectorDIC_allfail fit sc st hr hf⟩

/-- Witness for C10 at a concrete input. -/
theorem C10_fit_failure_returns_none_witness :
    stC1.min_n ≤ stC1.max_n ∧
    base_model fitNone stC1 2 = none ∧
    selectorConstant fitNone stC1 = none :=
  ⟨by decide,
    (C10_fit_failure_returns_none fitNone scC1 logC1 stC1 2 (by decide) (fun _ _ _ => rfl)).1,
    (C10_fit_failure_returns_none fitNone scC1 logC1 stC1 2 (by decide) (fun _ _ _ => rfl)).2.1⟩

variable {Item : Type*}

theorem scoreToPy_ne_nan (o : Option ℚ) : scoreToPy o ≠ PyFloat.nan := by
  cases o <;> simp [scoreToPy]

theorem itemScores_keys (sc : Model → Item → Option ℚ) (models : List (String × Model))
    (it : Item) : (itemScores sc models it).map Prod.fst = models.map Prod.fst := by
  simp [itemScores]

theorem itemScores_ne_nil (sc : Model → Item → Option ℚ) (models : List (String × Model))
    (it : Item) (h : models ≠ []) : itemScores sc models it ≠ [] := by
  simp [itemScores, h]

theorem itemScores_ne_nan (sc : Model → Item → Option ℚ) (models : List (String × Model))
    (it : Item) : ∀ p ∈ itemScores sc models it, p.2 ≠ PyFloat.nan := by
  intro p hp
  obtain ⟨wm, _, rfl⟩ := List.mem_map.1 hp
  exact scoreToPy_ne_nan _

theorem argmaxKey_spec (l : List (String × PyFloat)) (hne : l ≠ [])
    (hnn : ∀ p ∈ l, p.2 ≠ PyFloat.nan) :
    ∃ g v, argmaxKey l = some g ∧ (g, v) ∈ l ∧ ∀ p ∈ l, pyGt p.2 v = false := by
  have hm : (l.map (fun p => (p.2, p.1))) ≠ [] := by
    simp only [ne_eq, List.map_eq_nil_iff]
    exact hne
  have hnn' : ∀ q ∈ l.map (fun p => (p.2, p.1)), q.1 ≠ PyFloat.nan := by
    intro q hq
    obtain ⟨p, hp, rfl⟩ := List.mem_map.1 hq
    exact hnn p hp
  obtain ⟨pr, heq, hmem, hopt⟩ := pyMax_spec _ hnn' hm
  obtain ⟨p, hp, hpeq⟩ := List.mem_map.1 hmem
  refine ⟨pr.2, pr.1, ?_, ?_, ?_⟩
  · simp [argmaxKey, heq]
  · have hpr : (pr.2, pr.1) = p := by
      rw [← hpeq]
    rw [hpr]
    exact hp
  · intro q hq
    exact hopt _ (List.mem_map_of_mem _ hq)

theorem recognizeLoop_spec (sc : Model → Item → Option ℚ) (models : List (String × Model))
    (hm : models ≠ []) :
    ∀ items : List Item, ∃ probs gs,
      recognizeLoop sc models items = .ok (probs, gs) ∧
      probs = items.map (itemScores sc models) ∧
      gs.length = items.length ∧
      ∀ i (hi : i < items.length), ∃ g v, gs[i]? = some g ∧
        (g, v) ∈ itemScores sc models items[i] ∧
        ∀ p ∈ itemScores sc models items[i], pyGt p.2 v = false := by
  intro items
  induction items with
  | nil => exact ⟨[], [], rfl, rfl, rfl, fun i hi => absurd hi (by simp)⟩
  | cons it rest ih =>
    obtain ⟨probs, gs, hrec, hprobs, hlen, hspec⟩ := ih
    obtain ⟨g, v, hg, hgv, hopt⟩ := argmaxKey_spec (itemScores sc models it)
      (itemScores_ne_nil sc models it hm) (itemScores_ne_nan sc models it)
    refine ⟨itemScores sc models it :: probs, g :: gs, ?_, ?_, ?_, ?_⟩
    · simp only [recognizeLoop, hg, hrec]
    · simp [hprobs]
    · simp [hlen]
    · intro i hi
      cases i with
      | zero => exact ⟨g, v, by simp, by simpa using hgv, by simpa using hopt⟩
      | succ j =>
        have hj : j < rest.length := by simpa using hi
        obtain ⟨g', v', hg', hmem', hopt'⟩ := hspec j hj
        refine ⟨g', v', ?_, ?_, ?_⟩
        · simpa using hg'
        · simpa using hmem'
        · simpa using hopt'

/-!
Claim theorems: the recognizer.
-/

/-- C2 amended: for a nonempty models table with M classes and a test set
with T items, recognize returns a probabilities list of length T whose
i-th element has exactly one entry per class in table order (a scoring
failure is recorded as negative infinity, never omitted), and a guesses
list of length T whose i-th guess is a key of the i-th mapping that no
entry of that mapping strictly exceeds.  (With an empty table and a
nonempty test set the code instead raises ValueError.) -/
theorem C2_recognize_spec (sc : Model → Item → Option ℚ) (models : List (String × Model))
    (items : List Item) (hm : models ≠ []) :
    ∃ probs gs, recognize sc models items = .ok (probs, gs) ∧
      probs.length = items.length ∧ gs.length = items.length ∧
      (∀ LL ∈ probs, LL.map Prod.fst = models.map Prod.fst) ∧
      (∀ i (hi : i < items.length), probs[i]? = some (itemScores sc models items[i])) ∧
      (∀ w m, (w, m) ∈ models → ∀ it ∈ items, sc m it = none →
          (w, PyFloat.neginf) ∈ itemScores sc models it) ∧
      (∀ i (hi : i < items.length), ∃ g v, gs[i]? = some g ∧
        (g, v) ∈ itemScores sc models items[i] ∧
        ∀ p ∈ itemScores sc models items[i], pyGt p.2 v = false) := by
  obtain ⟨probs, gs, hrec, hprobs, hlen, hspec⟩ := recognizeLoop_spec sc models hm items
  subst hprobs
  refine ⟨_, gs, hrec, by simp, hlen, ?_, ?_, ?_, hspec⟩
  · intro LL hLL
    obtain ⟨it, _, rfl⟩ := List.mem_map.1 hLL
    exact itemScores_keys sc models it
  · intro i hi
    simp [List.getElem?_map, List.getElem?_eq_getElem hi]
  · intro w m hwm it hit hsc
    have hmem : ((w, m).1, scoreToPy (sc (w, m).2 it)) ∈ itemScores sc models it :=
      List.mem_map_of_mem _ hwm
    simpa [hsc, scoreToPy] using hmem

/-- Counterexample to C2 as stated: with an empty models table and one
test item, max() over the empty score dictionary raises ValueError, so
recognize returns no lists at all. -/
theorem C2_empty_table_raises :
    recognize (fun (_ : Unit) (_ : ℕ) => (none : Option ℚ)) [] [0] = .error .valueError := rfl

/-- Witness for the amended C2 at a concrete input. -/
theorem C2_recognize_spec_witness :
    (modelsW ≠ []) ∧
    ∃ probs gs, recognize scW modelsW [0] = .ok (probs, gs) ∧
      probs.length = ([0] : List ℕ).length ∧ gs.length = ([0] : List ℕ).length ∧
      (∀ LL ∈ probs, LL.map Prod.fst = modelsW.map Prod.fst) ∧
      (∀ i (hi : i < ([0] : List ℕ).length),
          probs[i]? = some (itemScores scW modelsW (([0] : List ℕ)[i]))) ∧
      (∀ w m, (w, m) ∈ modelsW → ∀ it ∈ ([0] : List ℕ), scW m it = none →
          (w, PyFloat.neginf) ∈ itemScores scW modelsW it) ∧
      (∀ i (hi : i < ([0] : List ℕ).length), ∃ g v, gs[i]? = some g ∧
        (g, v) ∈ itemScores scW modelsW (([0] : List ℕ)[i]) ∧
        ∀ p ∈ itemScores scW modelsW (([0] : List ℕ)[i]), pyGt p.2 v = false) :=
  ⟨by simp [modelsW], C2_recognize_spec scW modelsW [0] (by simp [modelsW])⟩


end AIND
